import Mathlib

/-!
Verification of the record-normalization, identifier-resolution and
template-substitution core of the PDF-generation tool.

The development shallowly embeds the two Python variants of the tool:

- the variant in `stom PDF/generate_pdf.py` (functions `_load_json_records`,
  `_extract_invoice_id`, `_records_by_invoice_id`, `_get_nested`,
  `render_html_template`, and the context assembly in `main`);
- the variant in `generate_pdf.py` (functions `read_json_file`,
  `get_invoice_ids`).

JSON values are modelled by the inductive `JValue`; Python dictionaries are
modelled as insertion-ordered association lists with unique keys, with
`lookupField` as dictionary lookup and `dictInsert` as dictionary assignment.
Machine floats are not modelled except for the pandas not-a-number sentinel,
which appears as the dedicated constructor `JValue.nan` whose textual form is
the string "nan", exactly like `str(float("nan"))` in Python.
-/

/-- A JSON-like runtime value, as produced by `json.load` or by the pandas
CSV reader. `nan` stands for the float not-a-number sentinel, the only float
the pipeline treats specially. -/
inductive JValue where
  | null
  | nan
  | bool (b : Bool)
  | int (n : Int)
  | str (s : String)
  | arr (elems : List JValue)
  | obj (fields : List (String × JValue))

/-- A record: a Python dictionary, insertion-ordered association list. -/
abbrev Record := List (String × JValue)

/-- Python dictionary lookup `d[k]` / `k in d`: first binding of the key
wins (keys of a Python dict are unique, so this is exact). -/
def lookupField {A : Type} : List (String × A) → String → Option A
  | [], _ => none
  | (k', v) :: rest, k => if k' = k then some v else lookupField rest k

/-- Python dictionary assignment `d[k] = v` on an association list: replaces
the value in place if the key is present, otherwise appends the new binding,
exactly matching insertion-order semantics of Python dicts. -/
def dictInsert {A : Type} : List (String × A) → String → A → List (String × A)
  | [], k, v => [(k, v)]
  | (k', v') :: rest, k, v =>
    if k' = k then (k, v) :: rest else (k', v') :: dictInsert rest k v

/-- Python `str.lower` restricted to the alphabets appearing in the source:
ASCII letters and the Russian Cyrillic letters used in the candidate key
lists. Other characters are unchanged. -/
def lowerChar (c : Char) : Char :=
  if 'A' ≤ c ∧ c ≤ 'Z' then Char.ofNat (c.toNat + 32)
  else if 'А' ≤ c ∧ c ≤ 'Я' then Char.ofNat (c.toNat + 32)
  else if c = 'Ё' then 'ё'
  else c

/-- Python `s.lower()` on a string. -/
def pyLower (s : String) : String := String.mk (s.data.map lowerChar)

/-- Python whitespace for `str.strip` and for the regex class `\s`
(the six ASCII whitespace characters; the exotic Unicode whitespace
characters never occur in the data this tool handles). -/
def isPySpace (c : Char) : Bool :=
  c = ' ' || c = '\t' || c = '\n' || c = '\r' || c = '\x0b' || c = '\x0c'

/-- Python `str.strip()` on a character list: drop leading and trailing
whitespace. -/
def pyStripL (l : List Char) : List Char :=
  ((l.dropWhile isPySpace).reverse.dropWhile isPySpace).reverse

/-- Python `str.strip()` on a string. -/
def pyStrip (s : String) : String := String.mk (pyStripL s.data)

/-- Escaping used by the Python `repr` of a string for the characters the
data model can contain: backslash, the quote character in use, and the
control characters newline, carriage return and tab. -/
def pyReprStrChar (quote : Char) (c : Char) : List Char :=
  if c = '\\' then ['\\', '\\']
  else if c = quote then ['\\', quote]
  else if c = '\n' then ['\\', 'n']
  else if c = '\r' then ['\\', 'r']
  else if c = '\t' then ['\\', 't']
  else [c]

/-- Python `repr` of a string: single-quoted unless the string contains a
single quote and no double quote, in which case it is double-quoted. -/
def pyReprStr (s : String) : String :=
  let q : Char :=
    if s.data.contains '\x27' ∧ ¬ s.data.contains '\x22' then '\x22' else '\x27'
  String.mk (q :: (s.data.flatMap (pyReprStrChar q)) ++ [q])

mutual

/-- Python `repr` of a value, needed because `str` of a container renders
its elements with `repr`. -/
def pyRepr : JValue → String
  | .null => "None"
  | .nan => "nan"
  | .bool b => if b then "True" else "False"
  | .int n => toString n
  | .str s => pyReprStr s
  | .arr xs => "[" ++ pyReprElems xs ++ "]"
  | .obj fs => "\x7b" ++ pyReprFields fs ++ "\x7d"

/-- Comma-separated `repr` of list elements. -/
def pyReprElems : List JValue → String
  | [] => ""
  | [x] => pyRepr x
  | x :: xs => pyRepr x ++ ", " ++ pyReprElems xs

/-- Comma-separated `repr` of dictionary items. -/
def pyReprFields : List (String × JValue) → String
  | [] => ""
  | [(k, v)] => pyReprStr k ++ ": " ++ pyRepr v
  | (k, v) :: fs => pyReprStr k ++ ": " ++ pyRepr v ++ ", " ++ pyReprFields fs

end

/-- Python `str` of a value: strings render as themselves, every other value
renders as its `repr`. -/
def pyStr : JValue → String
  | .str s => s
  | v => pyRepr v

/-- Python truthiness of a value: `None`, `False`, `0`, the empty string and
the empty containers are falsy; everything else, including the float
not-a-number, is truthy. -/
def pyTruthy : JValue → Bool
  | .null => false
  | .nan => true
  | .bool b => b
  | .int n => n ≠ 0
  | .str s => s ≠ ""
  | .arr xs => ¬ xs.isEmpty
  | .obj fs => ¬ fs.isEmpty

/-- The fixed priority list `INVOICE_ID_CANDIDATES` of the strict variant. -/
def INVOICE_ID_CANDIDATES : List String :=
  ["invoice_id", "invoiceId", "invoice id", "invoice",
   "InvoiceId", "InvoiceID", "id", "Id", "ID"]

/-- One candidate step of `_extract_invoice_id`: the body of the loop for a
single candidate key. Returns the stripped value exactly when the key is
literally present, its value is not `None`, and the stripped string form is
non-empty and is not the "nan" sentinel (case-insensitively). -/
def qualifies (r : Record) (k : String) : Option String :=
  match lookupField r k with
  | none => none
  | some v =>
    match v with
    | .null => none
    | _ =>
      let s := pyStrip (pyStr v)
      if s ≠ "" ∧ pyLower s ≠ "nan" then some s else none

/-- The candidate loop of `_extract_invoice_id`: `for k in INVOICE_ID_CANDIDATES:
if k in record and record[k] is not None: s = str(record[k]).strip();
if s and s.lower() != "nan": return s`. -/
def extractLoop (r : Record) : List String → Option String
  | [] => none
  | k :: ks =>
    match qualifies r k with
    | some s => some s
    | none => extractLoop r ks

/-- `_extract_invoice_id` from `stom PDF/generate_pdf.py`. -/
def _extract_invoice_id (r : Record) : Option String :=
  extractLoop r INVOICE_ID_CANDIDATES

/-- The loop body of `_records_by_invoice_id`, threading the running output
dictionary and the auto counter `auto_i`, which starts at 1. Entries that are
not dictionaries are skipped. The Python test `if not inv` treats both `None`
and the empty string as missing (the extractor can in fact never return an
empty string, but the embedding keeps the test faithful). -/
def recordsLoop : List JValue → Nat → List (String × Record) → List (String × Record)
  | [], _, out => out
  | v :: rest, auto_i, out =>
    match v with
    | .obj r =>
      match _extract_invoice_id r with
      | some s =>
        if s = "" then
          recordsLoop rest (auto_i + 1) (dictInsert out ("AUTO-" ++ toString auto_i) r)
        else
          recordsLoop rest auto_i (dictInsert out s r)
      | none =>
        recordsLoop rest (auto_i + 1) (dictInsert out ("AUTO-" ++ toString auto_i) r)
    | _ => recordsLoop rest auto_i out

/-- `_records_by_invoice_id` from `stom PDF/generate_pdf.py`: builds the
identifier index with the auto counter starting at 1 and an initially empty
dictionary. -/
def _records_by_invoice_id (records : List JValue) : List (String × Record) :=
  recordsLoop records 1 []

/-- Helper for stating theorems: the identifier assigned to each dictionary
record, in source order, tagged with whether it was auto-assigned. This
mirrors the per-record identifier decision of `recordsLoop` without building
the index, so that last-write-wins can be stated against it. -/
def assignTags : List JValue → Nat → List (String × Record × Bool)
  | [], _ => []
  | v :: rest, auto_i =>
    match v with
    | .obj r =>
      match _extract_invoice_id r with
      | some s =>
        if s = "" then ("AUTO-" ++ toString auto_i, r, true) :: assignTags rest (auto_i + 1)
        else (s, r, false) :: assignTags rest auto_i
      | none => ("AUTO-" ++ toString auto_i, r, true) :: assignTags rest (auto_i + 1)
    | _ => assignTags rest auto_i

/-- The per-record identifiers of a load, in source order. -/
def assignIds (records : List JValue) : List (String × Record) :=
  (assignTags records 1).map (fun p => (p.1, p.2.1))

/-- The auto-assigned placeholder identifiers of a load, in source order. -/
def autoIdsOf (records : List JValue) : List String :=
  (assignTags records 1).filterMap (fun p => if p.2.2 then some p.1 else none)

/-- The rows produced by the dict-of-dicts branch of `_load_json_records`:
for each object-valued field the row is that object, with the outer key
injected as `invoice_id` when none of `invoice_id`, `invoiceId`, `id` is
already present (Python dict assignment on an absent key appends at the
end). Non-object values are skipped. -/
def dictOfDictsRows : List (String × JValue) → List JValue
  | [] => []
  | (k, v) :: rest =>
    match v with
    | .obj fs =>
      let row :=
        if (lookupField fs "invoice_id").isNone
            && (lookupField fs "invoiceId").isNone
            && (lookupField fs "id").isNone
        then fs ++ [("invoice_id", JValue.str k)]
        else fs
      JValue.obj row :: dictOfDictsRows rest
    | _ => dictOfDictsRows rest

/-- Keep only the dictionary entries of a list, as the list comprehensions
`[x for x in data if isinstance(x, dict)]` do. -/
def keepObjs (xs : List JValue) : List JValue :=
  xs.filter (fun v => match v with | .obj _ => true | _ => false)

/-- The message of the `ValueError` raised by `_load_json_records` when no
shape is recognized. -/
def jsonFormatErrMsg : String :=
  "JSON формат не распознан. Ожидается список объектов или объект с ключом \x27invoices\x27."

/-- `_load_json_records` from `stom PDF/generate_pdf.py`, applied to the
already-parsed JSON value: a list keeps its dictionary entries; a dictionary
with an `invoices` list keeps that list\x27s dictionary entries; otherwise the
dict-of-dicts rows are taken if there are any; otherwise a `ValueError`
with `jsonFormatErrMsg` is raised. -/
def _load_json_records (data : JValue) : Except String (List JValue) :=
  match data with
  | .arr xs => .ok (keepObjs xs)
  | .obj fields =>
    match lookupField fields "invoices" with
    | some (.arr xs) => .ok (keepObjs xs)
    | _ =>
      let values := dictOfDictsRows fields
      if values.isEmpty then .error jsonFormatErrMsg else .ok values
  | _ => .error jsonFormatErrMsg

/-- The first list-valued field of a dictionary, in insertion order, as the
loop `for value in data.values(): if isinstance(value, list): return value`
finds it. -/
def firstListValue : List (String × JValue) → Option (List JValue)
  | [] => none
  | (_, v) :: rest =>
    match v with
    | .arr xs => some xs
    | _ => firstListValue rest

/-- `read_json_file` from `generate_pdf.py`, applied to the already-parsed
JSON value. A dictionary yields its first list-valued field, or failing that
the dictionary itself as a one-element list; a list is returned as is; any
other value is wrapped in a one-element list. It can never fail. -/
def read_json_file (data : JValue) : List JValue :=
  match data with
  | .obj fields =>
    match firstListValue fields with
    | some xs => xs
    | none => [JValue.obj fields]
  | .arr xs => xs
  | v => [v]

/-- The `possible_keys` candidate list of `get_invoice_ids` in
`generate_pdf.py`. -/
def possible_keys : List String :=
  ["invoice_id", "invoiceId", "invoice-id", "invoice",
   "id", "invoice_number", "invoiceNumber", "номер",
   "номер_счета", "счет", "check_id", "checkId", "check-id"]

/-- The first field whose lowered name equals the lowered candidate key, as
the inner loop over `item.keys()` finds it. -/
def findCI (fields : List (String × JValue)) (key : String) : Option JValue :=
  match fields with
  | [] => none
  | (k, v) :: rest => if pyLower k = pyLower key then some v else findCI rest key

/-- The candidate loop of `get_invoice_ids` over `possible_keys`, threading
the running `invoice_id` (Python `None` is the `JValue.null` start value).
When a candidate matches case-insensitively, its value replaces the running
one; the loop stops early only when that value is truthy. -/
def giiLoop (fields : List (String × JValue)) : List String → JValue → JValue
  | [], acc => acc
  | key :: ks, acc =>
    match findCI fields key with
    | some v => if pyTruthy v then v else giiLoop fields ks v
    | none => giiLoop fields ks acc

/-- The identifier string produced by `get_invoice_ids` for the item at
0-based index `idx`: for a dictionary, the candidate loop runs, a falsy
outcome falls back to the first value of the dictionary (or `idx + 1` when
the dictionary is empty), and a final `None` renders as `str(idx + 1)`;
a non-dictionary item yields `str(idx + 1)`. -/
def gii_one (idx : Nat) (item : JValue) : String :=
  match item with
  | .obj fields =>
    let inv := giiLoop fields possible_keys JValue.null
    let inv :=
      if pyTruthy inv then inv
      else
        match fields with
        | [] => JValue.int (Int.ofNat (idx + 1))
        | (_, v) :: _ => v
    match inv with
    | .null => pyStr (JValue.int (Int.ofNat (idx + 1)))
    | v => pyStr v
  | _ => pyStr (JValue.int (Int.ofNat (idx + 1)))

/-- The enumeration loop of `get_invoice_ids`. -/
def giiGo (idx : Nat) : List JValue → List String
  | [] => []
  | item :: rest => gii_one idx item :: giiGo (idx + 1) rest

/-- `get_invoice_ids` from `generate_pdf.py`. -/
def get_invoice_ids (data : List JValue) : List String := giiGo 0 data

/-- Characters allowed in a placeholder path by the template regex class
`[a-zA-Z0-9_.-]` (the ASCII ranges, underscore, period, hyphen). -/
def isKeyChar (c : Char) : Bool :=
  c.isAlpha || c.isDigit || c = '_' || c = '.' || c = '-'

/-- One nested lookup walk of `_get_nested`: follow the path parts through
dictionaries, short-circuiting to `none` the moment the current value is not
a dictionary or lacks the part. A final Python `None` value is returned as
`some JValue.null`, which the renderer treats the same as an unresolved
path, exactly as in the source where both surface as `None`. -/
def getNestedGo : JValue → List String → Option JValue
  | cur, [] => some cur
  | cur, p :: ps =>
    match cur with
    | .obj fields =>
      match lookupField fields p with
      | some v => getNestedGo v ps
      | none => none
    | _ => none

/-- Python `dotted_key.split(".")` on the character list: splitting on every
period, with the empty string for leading, trailing or doubled periods,
exactly like `str.split` with an explicit separator. -/
def splitOnDot : List Char → List (List Char)
  | [] => [[]]
  | c :: rest =>
    if c = '.' then [] :: splitOnDot rest
    else
      match splitOnDot rest with
      | [] => [[c]]
      | p :: ps => (c :: p) :: ps

/-- `_get_nested` from `stom PDF/generate_pdf.py`: split the dotted key on
periods and walk the context. -/
def _get_nested (data : Record) (dotted_key : String) : Option JValue :=
  getNestedGo (JValue.obj data) ((splitOnDot dotted_key.data).map String.mk)

/-- Per-character expansion of `html.escape(s, quote=True)`. The Python
implementation replaces `&` first and then `<`, `>`, `"`, `\x27` in turn;
since the amp pass runs first and no replacement string contains a
character replaced by a later pass from the original string, the sequential
replacement equals this single per-character expansion. -/
def escChar (c : Char) : List Char :=
  if c = '&' then "&amp;".data
  else if c = '<' then "&lt;".data
  else if c = '>' then "&gt;".data
  else if c = '\x22' then "&quot;".data
  else if c = '\x27' then "&#x27;".data
  else [c]

/-- `html.escape` with `quote=True` on a character list. -/
def escapeChars : List Char → List Char
  | [] => []
  | c :: cs => escChar c ++ escapeChars cs

/-- `html.escape` with `quote=True` on a string. -/
def escapeString (s : String) : String := String.mk (escapeChars s.data)

/-- The replacement function `repl` of `render_html_template`: resolve the
dotted key against the context, render `None` (unresolved path or explicit
null) as the empty string, normalize the pandas not-a-number to the empty
string, and HTML-escape everything else. -/
def replValue (ctx : Record) (key : String) : String :=
  match _get_nested ctx key with
  | none => ""
  | some v =>
    match v with
    | .null => ""
    | _ =>
      let s := pyStr v
      if pyLower s = "nan" then "" else escapeString s

/-- Attempt to match the template token regex
`\x7b\x7b\s*([a-zA-Z0-9_.-]+)\s*\x7d\x7d` at the start of the character
list; on success return the captured path and the characters after the
match. The two character classes involved are disjoint, so the greedy
maximal munch of each piece is exact. -/
def tryToken : List Char → Option (String × List Char)
  | '\x7b' :: '\x7b' :: rest =>
    let afterOpenWs := rest.dropWhile isPySpace
    let keyChars := afterOpenWs.takeWhile isKeyChar
    let afterKey := afterOpenWs.dropWhile isKeyChar
    if keyChars.isEmpty then none
    else
      match afterKey.dropWhile isPySpace with
      | '\x7d' :: '\x7d' :: tail => some (String.mk keyChars, tail)
      | _ => none
  | _ => none

/-- A successful token match consumes at least the two opening braces, so
the remainder is strictly shorter. -/
theorem tryToken_length {l : List Char} {k : String} {t : List Char}
    (h : tryToken l = some (k, t)) : t.length < l.length := by
  unfold tryToken at h
  split at h
  · rename_i rest
    dsimp only at h
    split at h
    · simp at h
    · split at h
      · rename_i tail heq
        simp only [Option.some.injEq, Prod.mk.injEq] at h
        obtain ⟨h5, h6⟩ := h
        subst h6
        have h7 : (((rest.dropWhile isPySpace).dropWhile isKeyChar).dropWhile isPySpace).length = tail.length + 2 := by
          rw [heq]; simp
        have h8 := (List.dropWhile_sublist (l := (rest.dropWhile isPySpace).dropWhile isKeyChar) isPySpace).length_le
        have h9 := (List.dropWhile_sublist (l := rest.dropWhile isPySpace) isKeyChar).length_le
        have h10 := (List.dropWhile_sublist (l := rest) isPySpace).length_le
        simp only [List.length_cons]
        omega
      · simp at h
  · simp at h

/-- The scanning loop of `re.sub` with the template token regex: at each
position, the leftmost match is replaced by `repl` and scanning resumes
after the match; a position with no match is copied through unchanged. -/
def renderChars (ctx : Record) : List Char → List Char
  | [] => []
  | c :: rest =>
    match h : tryToken (c :: rest) with
    | some (key, tail) => (replValue ctx key).data ++ renderChars ctx tail
    | none => c :: renderChars ctx rest
termination_by l => l.length
decreasing_by
  · exact tryToken_length h
  · simp [List.length_cons]

/-- `render_html_template` from `stom PDF/generate_pdf.py`. -/
def render_html_template (template_html : String) (context : Record) : String :=
  String.mk (renderChars context template_html.data)

/-- Python `dict.setdefault(k, v)`: insert the binding only when the key is
absent; an insertion appends at the end. -/
def pySetdefault (d : Record) (k : String) (v : JValue) : Record :=
  match lookupField d k with
  | some _ => d
  | none => d ++ [(k, v)]

/-- The context assembly of `main` in `stom PDF/generate_pdf.py`:
`context = dict(record)` followed by `context.setdefault("invoice_id",
chosen_id)` and `context.setdefault("generated_at", ...)`. The timestamp is
a parameter, since it is read from the clock. -/
def assembleContext (record : Record) (chosen_id : String) (generated_at : String) : Record :=
  pySetdefault (pySetdefault record "invoice_id" (JValue.str chosen_id))
    "generated_at" (JValue.str generated_at)

/-- Modelled from the claim wording of C1 (and the spec sentence that
standardizes on case-insensitive matching): walk the fixed priority list and
return the trimmed string form of the first candidate that matches some
field name up to case with a present, non-null value that is non-empty
after trimming and is not the "nan" sentinel. -/
def claimResolveCI (r : Record) : List String → Option String
  | [] => none
  | k :: ks =>
    match findCI r k with
    | some v =>
      match v with
      | .null => claimResolveCI r ks
      | _ =>
        let s := pyStrip (pyStr v)
        if s ≠ "" ∧ pyLower s ≠ "nan" then some s else claimResolveCI r ks
    | none => claimResolveCI r ks

/-! ### Dictionary lemmas -/

/-- Lookup after a dictionary assignment: the assigned key now maps to the
new value and every other key is untouched. -/
theorem lookupField_dictInsert {A : Type} (out : List (String × A)) (k k' : String) (r : A) :
    lookupField (dictInsert out k r) k' = if k = k' then some r else lookupField out k' := by
  induction out with
  | nil => by_cases h : k = k' <;> simp [dictInsert, lookupField, h]
  | cons p rest ih =>
    obtain ⟨pk, pv⟩ := p
    by_cases hpk : pk = k
    · simp only [dictInsert, if_pos hpk, lookupField]
      by_cases hkk : k = k'
      · simp [hkk]
      · have hpk' : ¬ pk = k' := by rw [hpk]; exact hkk
        simp [hkk, hpk', lookupField]
    · simp only [dictInsert, if_neg hpk, lookupField, ih]
      by_cases hpk' : pk = k'
      · have hk : ¬ k = k' := fun h => hpk (hpk'.trans h.symm)
        simp [hpk', hk]
      · simp [hpk']

/-- Lookup in a concatenation: the left dictionary wins. -/
theorem lookupField_append {A : Type} (d e : List (String × A)) (k : String) :
    lookupField (d ++ e) k =
      match lookupField d k with
      | some v => some v
      | none => lookupField e k := by
  induction d with
  | nil => simp [lookupField]
  | cons p rest ih =>
    obtain ⟨pk, pv⟩ := p
    by_cases hpk : pk = k <;> simp [lookupField, hpk, ih]

/-- Membership after a dictionary assignment. -/
theorem mem_dictInsert {A : Type} {out : List (String × A)} {k : String} {r : A}
    {q : String × A} (h : q ∈ dictInsert out k r) : q = (k, r) ∨ q ∈ out := by
  induction out with
  | nil => simpa [dictInsert] using h
  | cons p rest ih =>
    by_cases hpk : p.1 = k
    · rw [show p = (p.1, p.2) from rfl, dictInsert, if_pos hpk] at h
      rcases List.mem_cons.mp h with h1 | h1
      · exact Or.inl h1
      · exact Or.inr (List.mem_cons_of_mem _ h1)
    · rw [show p = (p.1, p.2) from rfl, dictInsert, if_neg hpk] at h
      rcases List.mem_cons.mp h with h1 | h1
      · exact Or.inr (h1 ▸ List.mem_cons_self _ _)
      · rcases ih h1 with h2 | h2
        · exact Or.inl h2
        · exact Or.inr (List.mem_cons_of_mem _ h2)

/-- The index builder is the left fold of dictionary assignment over the
per-record identifier assignment. -/
theorem recordsLoop_eq_foldl (records : List JValue) :
    ∀ (n : Nat) (out : List (String × Record)),
    recordsLoop records n out =
      (assignTags records n).foldl (fun o p => dictInsert o p.1 p.2.1) out := by
  induction records with
  | nil => intro n out; simp [recordsLoop, assignTags]
  | cons v rest ih =>
    intro n out
    match v with
    | .null | .nan | .bool _ | .int _ | .str _ | .arr _ =>
      simp [recordsLoop, assignTags, ih]
    | .obj r =>
      simp only [recordsLoop, assignTags]
      match _extract_invoice_id r with
      | some s =>
        by_cases hs : s = "" <;> simp [hs, ih]
      | none => simp [ih]

/-- Last-write-wins over a fold of dictionary assignments: a key maps to the
value of its last occurrence in the assignment sequence, and otherwise to
its binding in the starting dictionary. -/
theorem lookupField_foldl_dictInsert {A : Type} (ps : List (String × A)) :
    ∀ (out : List (String × A)) (k : String),
    lookupField (ps.foldl (fun o p => dictInsert o p.1 p.2) out) k =
      match ps.reverse.find? (fun p => p.1 == k) with
      | some p => some p.2
      | none => lookupField out k := by
  induction ps with
  | nil => intro out k; simp
  | cons p rest ih =>
    intro out k
    simp only [List.foldl_cons, List.reverse_cons]
    rw [ih, List.find?_append]
    match h : rest.reverse.find? (fun q => q.1 == k) with
    | some q => simp [h, Option.or]
    | none =>
      rw [h, lookupField_dictInsert]
      by_cases hk : p.1 = k
      · simp [List.find?_cons, hk, Option.or]
      · simp [List.find?_cons, beq_eq_false_iff_ne, hk, Option.or]

/-- Lookup after `setdefault`: an existing binding is untouched; the default
appears only for the new key when it was absent. -/
theorem lookupField_pySetdefault (d : Record) (k0 : String) (v0 : JValue) (k : String) :
    lookupField (pySetdefault d k0 v0) k =
      match lookupField d k with
      | some v => some v
      | none => if k0 = k then some v0 else none := by
  unfold pySetdefault
  match h : lookupField d k0 with
  | some w =>
    match h2 : lookupField d k with
    | some v => simp [h2]
    | none =>
      by_cases hk : k0 = k
      · rw [hk, h2] at h; exact absurd h (by simp)
      · simp [h2, hk]
  | none =>
    rw [lookupField_append]
    match h2 : lookupField d k with
    | some v => simp [h2]
    | none => by_cases hk : k0 = k <;> simp [h2, lookupField, hk]

/-- Claim C3: building the index iterates in source order and maps every
identifier to the last record of the load that received it, and in
particular two records both resolving to "A" leave the second one in the
index. -/
theorem claim_C3 :
    (∀ (records : List JValue) (k : String),
      lookupField (_records_by_invoice_id records) k =
        ((assignIds records).reverse.find? (fun p => p.1 == k)).map Prod.snd) ∧
    lookupField (_records_by_invoice_id
        [JValue.obj [("id", JValue.str "A"), ("amt", JValue.int 5)],
         JValue.obj [("id", JValue.str "A"), ("amt", JValue.int 9)]]) "A" =
      some [("id", JValue.str "A"), ("amt", JValue.int 9)] := by
  constructor
  · intro records k
    have h1 : _records_by_invoice_id records =
        (assignIds records).foldl (fun o p => dictInsert o p.1 p.2) [] := by
      rw [_records_by_invoice_id, recordsLoop_eq_foldl, assignIds, List.foldl_map]
    rw [h1, lookupField_foldl_dictInsert]
    match h : (assignIds records).reverse.find? (fun p => p.1 == k) with
    | some q => simp [h]
    | none => simp [h, lookupField]
  · rfl

/-- Claim C9: context assembly preserves every field of the chosen record
and adds the pipeline defaults `invoice_id` and `generated_at` only when
they are absent from the record. -/
theorem claim_C9 :
    (∀ (r : Record) (cid ts k : String) (v : JValue),
        lookupField r k = some v →
        lookupField (assembleContext r cid ts) k = some v) ∧
    (∀ (r : Record) (cid ts : String), lookupField r "invoice_id" = none →
        lookupField (assembleContext r cid ts) "invoice_id" = some (JValue.str cid)) ∧
    (∀ (r : Record) (cid ts : String), lookupField r "generated_at" = none →
        lookupField (assembleContext r cid ts) "generated_at" = some (JValue.str ts)) := by
  refine ⟨?_, ?_, ?_⟩
  · intro r cid ts k v h
    rw [assembleContext, lookupField_pySetdefault, lookupField_pySetdefault, h]
  · intro r cid ts h
    rw [assembleContext, lookupField_pySetdefault, lookupField_pySetdefault, h]
    simp
  · intro r cid ts h
    rw [assembleContext, lookupField_pySetdefault, lookupField_pySetdefault, h]
    simp

/-- Witness for claim C9 at a concrete record: the existing field survives
and both defaults are filled in. -/
theorem claim_C9_witness :
    lookupField (assembleContext [("amt", JValue.int 5)] "A" "2024-01-01") "amt" =
      some (JValue.int 5) ∧
    lookupField (assembleContext [("amt", JValue.int 5)] "A" "2024-01-01") "invoice_id" =
      some (JValue.str "A") ∧
    lookupField (assembleContext [("amt", JValue.int 5)] "A" "2024-01-01") "generated_at" =
      some (JValue.str "2024-01-01") :=
  ⟨claim_C9.1 [("amt", JValue.int 5)] "A" "2024-01-01" "amt" (JValue.int 5) rfl,
   claim_C9.2.1 [("amt", JValue.int 5)] "A" "2024-01-01" rfl,
   claim_C9.2.2 [("amt", JValue.int 5)] "A" "2024-01-01" rfl⟩

/-! ### Whitespace stripping lemmas -/

/-- Dropping while a predicate fails on every element changes nothing. -/
theorem dropWhile_eq_self_of_forall {p : Char → Bool} :
    ∀ {l : List Char}, (∀ c ∈ l, p c = false) → l.dropWhile p = l
  | [], _ => rfl
  | c :: t, h => by
    have hc : p c = false := h c (List.mem_cons_self _ _)
    simp [List.dropWhile_cons, hc]

/-- A string of non-whitespace characters strips to itself. -/
theorem pyStripL_eq_self_of_forall {l : List Char}
    (h : ∀ c ∈ l, isPySpace c = false) : pyStripL l = l := by
  unfold pyStripL
  rw [dropWhile_eq_self_of_forall h,
    dropWhile_eq_self_of_forall (fun c hc => h c (List.mem_reverse.mp hc)),
    List.reverse_reverse]

/-- The head surviving a `dropWhile` fails the predicate. -/
theorem dropWhile_head_false {p : Char → Bool} :
    ∀ {l t : List Char} {c : Char}, l.dropWhile p = c :: t → p c = false := by
  intro l
  induction l with
  | nil => intro t c h; exact absurd h (by simp)
  | cons a l ih =>
    intro t c h
    rw [List.dropWhile_cons] at h
    by_cases ha : p a = true
    · rw [if_pos ha] at h; exact ih h
    · rw [if_neg ha] at h
      injection h with h1 h2
      rw [← h1]
      simpa using ha

/-- `dropWhile` is idempotent. -/
theorem dropWhile_idem {p : Char → Bool} (l : List Char) :
    (l.dropWhile p).dropWhile p = l.dropWhile p := by
  match h : l.dropWhile p with
  | [] => rfl
  | c :: t => rw [List.dropWhile_cons, dropWhile_head_false h]; simp

/-- A stripped list has no trailing whitespace to drop. -/
theorem stripL_no_trail (l : List Char) :
    ((pyStripL l).reverse).dropWhile isPySpace = (pyStripL l).reverse := by
  unfold pyStripL
  rw [List.reverse_reverse]
  exact dropWhile_idem _

/-- A stripped list has no leading whitespace to drop. -/
theorem stripL_no_lead (l : List Char) :
    (pyStripL l).dropWhile isPySpace = pyStripL l := by
  match hBr : pyStripL l with
  | [] => simp
  | c :: t =>
    obtain ⟨w, hw⟩ :=
      List.dropWhile_suffix (l := (l.dropWhile isPySpace).reverse) isPySpace
    have hlA : l.dropWhile isPySpace = c :: (t ++ w.reverse) := by
      calc l.dropWhile isPySpace
          = ((l.dropWhile isPySpace).reverse).reverse := (List.reverse_reverse _).symm
        _ = (w ++ (l.dropWhile isPySpace).reverse.dropWhile isPySpace).reverse := by
            rw [hw]
        _ = ((l.dropWhile isPySpace).reverse.dropWhile isPySpace).reverse ++ w.reverse := by
            rw [List.reverse_append]
        _ = (c :: t) ++ w.reverse := by
            rw [show ((l.dropWhile isPySpace).reverse.dropWhile isPySpace).reverse =
              pyStripL l from rfl, hBr]
        _ = c :: (t ++ w.reverse) := rfl
    have hpc := dropWhile_head_false hlA
    rw [List.dropWhile_cons, hpc]
    simp

/-- Stripping is idempotent on character lists. -/
theorem pyStripL_idem (l : List Char) : pyStripL (pyStripL l) = pyStripL l := by
  conv_lhs => rw [pyStripL, stripL_no_lead l, stripL_no_trail l, List.reverse_reverse]

/-- Stripping is idempotent on strings. -/
theorem pyStrip_idem (s : String) : pyStrip (pyStrip s) = pyStrip s := by
  show String.mk (pyStripL (pyStripL s.data)) = String.mk (pyStripL s.data)
  rw [pyStripL_idem]

/-! ### Decimal digit lemmas for the AUTO placeholders -/

/-- Digit characters are never whitespace. -/
theorem digitChar_not_space (m : Nat) : isPySpace (Nat.digitChar m) = false := by
  match m with
  | 0 | 1 | 2 | 3 | 4 | 5 | 6 | 7 | 8 | 9 | 10 | 11 | 12 | 13 | 14 | 15 => decide
  | m + 16 => rfl

/-- Every character produced by the core decimal printer is a digit
character or comes from the accumulator, hence never whitespace. -/
theorem toDigitsCore_not_space (fuel : Nat) :
    ∀ (n : Nat) (ds : List Char), (∀ c ∈ ds, isPySpace c = false) →
      ∀ c ∈ Nat.toDigitsCore 10 fuel n ds, isPySpace c = false := by
  induction fuel with
  | zero => intro n ds h c hc; exact h c hc
  | succ f ih =>
    intro n ds h c hc
    simp only [Nat.toDigitsCore] at hc
    by_cases hnb : n / 10 = 0
    · rw [if_pos hnb] at hc
      rcases List.mem_cons.mp hc with h1 | h1
      · rw [h1]; exact digitChar_not_space _
      · exact h c h1
    · rw [if_neg hnb] at hc
      refine ih (n / 10) (Nat.digitChar (n % 10) :: ds) ?_ c hc
      intro d hd
      rcases List.mem_cons.mp hd with h1 | h1
      · rw [h1]; exact digitChar_not_space _
      · exact h d h1

/-- The decimal form of a natural number contains no whitespace. -/
theorem natToString_not_space (n : Nat) : ∀ c ∈ (toString n).data, isPySpace c = false := by
  intro c hc
  have hd : (toString n).data = Nat.toDigitsCore 10 (n + 1) n [] := rfl
  rw [hd] at hc
  exact toDigitsCore_not_space (n + 1) n [] (by intro d hd2; exact absurd hd2 (by simp)) c hc

/-- The core decimal printer only prepends to its accumulator. -/
theorem toDigitsCore_append10 : ∀ (fuel n : Nat) (ds : List Char),
    Nat.toDigitsCore 10 fuel n ds = Nat.toDigitsCore 10 fuel n [] ++ ds := by
  intro fuel
  induction fuel with
  | zero => intro n ds; rfl
  | succ f ih =>
    intro n ds
    simp only [Nat.toDigitsCore]
    by_cases hnb : n / 10 = 0
    · rw [if_pos hnb, if_pos hnb]; rfl
    · rw [if_neg hnb, if_neg hnb, ih (n / 10) [Nat.digitChar (n % 10)],
        ih (n / 10) (Nat.digitChar (n % 10) :: ds), List.append_assoc]
      rfl

/-- The base-10 value of a most-significant-first digit string. -/
def digitsVal (l : List Char) : Nat :=
  l.foldl (fun acc c => acc * 10 + (c.toNat - Char.toNat '0')) 0

/-- Appending one digit multiplies the value by ten and adds the digit. -/
theorem digitsVal_append_singleton (l : List Char) (c : Char) :
    digitsVal (l ++ [c]) = digitsVal l * 10 + (c.toNat - Char.toNat '0') := by
  simp [digitsVal, List.foldl_append]

/-- The numeric value of a digit character below ten. -/
theorem digitChar_val (m : Nat) (h : m < 10) :
    (Nat.digitChar m).toNat - Char.toNat '0' = m := by
  interval_cases m <;> decide

/-- The core decimal printer is correct: reading its output back gives the
number printed. -/
theorem digitsVal_toDigitsCore : ∀ (fuel n : Nat), n < fuel →
    digitsVal (Nat.toDigitsCore 10 fuel n []) = n := by
  intro fuel
  induction fuel with
  | zero => intro n h; omega
  | succ f ih =>
    intro n h
    simp only [Nat.toDigitsCore]
    by_cases hnb : n / 10 = 0
    · rw [if_pos hnb]
      have h1 : digitsVal [Nat.digitChar (n % 10)] =
          (Nat.digitChar (n % 10)).toNat - Char.toNat '0' := by
        simp [digitsVal]
      rw [h1, digitChar_val (n % 10) (Nat.mod_lt _ (by omega))]
      omega
    · rw [if_neg hnb, toDigitsCore_append10, digitsVal_append_singleton,
        ih (n / 10) (by omega), digitChar_val (n % 10) (Nat.mod_lt _ (by omega))]
      omega

/-- Decimal printing of natural numbers is injective. -/
theorem natToString_inj {m n : Nat} (h : toString m = toString n) : m = n := by
  have h2 : Nat.toDigitsCore 10 (m + 1) m [] = Nat.toDigitsCore 10 (n + 1) n [] :=
    congrArg String.data h
  have h3 := congrArg digitsVal h2
  rwa [digitsVal_toDigitsCore (m + 1) m (by omega),
    digitsVal_toDigitsCore (n + 1) n (by omega)] at h3

/-! ### Auto-assigned placeholder identifiers -/

/-- The number of records of a load that fail identifier resolution (and
hence receive an auto placeholder); non-dictionary entries do not count. -/
def countAuto : List JValue → Nat
  | [] => 0
  | v :: rest =>
    match v with
    | .obj r =>
      match _extract_invoice_id r with
      | some s => if s = "" then countAuto rest + 1 else countAuto rest
      | none => countAuto rest + 1
    | _ => countAuto rest

/-- Unfolding a length-successor range of AUTO names into head and tail. -/
theorem range_map_auto (n m : Nat) :
    (List.range (m + 1)).map (fun i => "AUTO-" ++ toString (n + i)) =
      ("AUTO-" ++ toString n) :: (List.range m).map (fun i => "AUTO-" ++ toString (n + 1 + i)) := by
  rw [List.range_succ_eq_map, List.map_cons, List.map_map]
  refine congrArg₂ List.cons (congrArg (fun x => "AUTO-" ++ toString x) (Nat.add_zero n)) ?_
  refine List.map_congr_left ?_
  intro i hi
  exact congrArg (fun x => "AUTO-" ++ toString x) (by omega)

/-- The auto-assigned identifiers of a load starting at counter `n` are
exactly `AUTO-n`, `AUTO-(n+1)`, and so on, one per unresolved record in
source order. -/
theorem autoTags_char (records : List JValue) : ∀ (n : Nat),
    (assignTags records n).filterMap (fun p => if p.2.2 then some p.1 else none) =
      (List.range (countAuto records)).map (fun i => "AUTO-" ++ toString (n + i)) := by
  induction records with
  | nil => intro n; simp [assignTags, countAuto]
  | cons v rest ih =>
    intro n
    match v with
    | .null | .nan | .bool _ | .int _ | .str _ | .arr _ =>
      simpa [assignTags, countAuto] using ih n
    | .obj r =>
      simp only [assignTags, countAuto]
      match _extract_invoice_id r with
      | some s =>
        by_cases hs : s = ""
        · simp [hs, List.filterMap_cons, ih (n + 1), range_map_auto]
        · simp [hs, List.filterMap_cons, ih n]
      | none =>
        simp [List.filterMap_cons, ih (n + 1), range_map_auto]

/-- Prefixing with AUTO- keeps decimal printing injective. -/
theorem auto_name_inj {a b : Nat} (h : "AUTO-" ++ toString a = "AUTO-" ++ toString b) :
    a = b := by
  have h2 : ("AUTO-".data ++ (toString a).data) = ("AUTO-".data ++ (toString b).data) :=
    congrArg String.data h
  have h3 := List.append_cancel_left h2
  exact natToString_inj (congrArg String.mk h3)

/-- Claim C4, amended: each unresolved record receives `AUTO-<n>` with a
1-based counter advancing only over unresolved records (so the two
identifier-less records get AUTO-1 and AUTO-2 in source order), and the
placeholders are pairwise distinct among themselves; they are however not
guaranteed distinct from resolved identifiers of the same load. -/
theorem claim_C4_amended :
    (∀ records : List JValue,
        autoIdsOf records =
          (List.range (countAuto records)).map (fun i => "AUTO-" ++ toString (1 + i))) ∧
    (∀ records : List JValue, (autoIdsOf records).Nodup) ∧
    _records_by_invoice_id
        [JValue.obj [("name", JValue.str "X")], JValue.obj [("name", JValue.str "Y")]] =
      [("AUTO-1", [("name", JValue.str "X")]), ("AUTO-2", [("name", JValue.str "Y")])] := by
  have hchar : ∀ records : List JValue,
      autoIdsOf records =
        (List.range (countAuto records)).map (fun i => "AUTO-" ++ toString (1 + i)) := by
    intro records
    rw [autoIdsOf, autoTags_char records 1]
  refine ⟨hchar, ?_, rfl⟩
  intro records
  rw [hchar records]
  refine List.Nodup.map ?_ (List.nodup_range _)
  intro a b hab
  have := auto_name_inj hab
  omega

/-- Claim C4 counterexample: the claimed uniqueness of auto placeholders
among all identifiers of a load fails. The first record resolves to the
identifier AUTO-1; the second record is unresolved and is auto-assigned the
same placeholder AUTO-1, which then silently replaces the first record in
the index. -/
theorem claim_C4_counterexample :
    _extract_invoice_id [("id", JValue.str "AUTO-1"), ("amt", JValue.int 1)] =
      some "AUTO-1" ∧
    autoIdsOf
        [JValue.obj [("id", JValue.str "AUTO-1"), ("amt", JValue.int 1)],
         JValue.obj [("name", JValue.str "X")]] = ["AUTO-1"] ∧
    _records_by_invoice_id
        [JValue.obj [("id", JValue.str "AUTO-1"), ("amt", JValue.int 1)],
         JValue.obj [("name", JValue.str "X")]] =
      [("AUTO-1", [("name", JValue.str "X")])] :=
  ⟨rfl, rfl, rfl⟩

/-! ### Well-formedness of the index keys -/

/-- A qualifying candidate value yields a non-empty, fully stripped
identifier. -/
theorem qualifies_good {r : Record} {k s : String} (h : qualifies r k = some s) :
    s ≠ "" ∧ pyStrip s = s := by
  unfold qualifies at h
  split at h
  · exact absurd h (by simp)
  · dsimp only at h
    split at h
    · exact absurd h (by simp)
    all_goals
      split at h
    all_goals rename_i hc
    all_goals
      first
      | (rw [Option.some.injEq] at h
         exact ⟨h ▸ hc.1, by rw [← h, pyStrip_idem]⟩)
      | exact absurd h (by simp)

/-- The candidate loop only ever returns qualifying values. -/
theorem extractLoop_good {r : Record} {s : String} :
    ∀ {ks : List String}, extractLoop r ks = some s → s ≠ "" ∧ pyStrip s = s := by
  intro ks
  induction ks with
  | nil => intro h; exact absurd h (by simp [extractLoop])
  | cons k ks ih =>
    intro h
    rw [extractLoop] at h
    split at h
    · rename_i s0 hq
      rw [Option.some.injEq] at h
      exact qualifies_good (h ▸ hq)
    · exact ih h

/-- Auto placeholders are non-empty and fully stripped. -/
theorem auto_key_good (i : Nat) :
    ("AUTO-" ++ toString i) ≠ "" ∧
      pyStrip ("AUTO-" ++ toString i) = "AUTO-" ++ toString i := by
  constructor
  · intro h
    have h2 : ('A' :: ("UTO-".data ++ (toString i).data)) = ([] : List Char) :=
      congrArg String.data h
    exact absurd h2 (by simp)
  · show String.mk (pyStripL ("AUTO-" ++ toString i).data) = "AUTO-" ++ toString i
    rw [pyStripL_eq_self_of_forall]
    intro c hc
    rcases List.mem_append.mp hc with h1 | h1
    · have h2 : c = 'A' ∨ c = 'U' ∨ c = 'T' ∨ c = 'O' ∨ c = '-' := by simpa using h1
      rcases h2 with rfl | rfl | rfl | rfl | rfl <;> rfl
    · exact natToString_not_space i c h1

/-- Invariant of the index-building loop: starting from a dictionary whose
keys are non-empty and stripped, every key of the result is non-empty and
stripped. -/
theorem recordsLoop_keys_good (records : List JValue) :
    ∀ (n : Nat) (out : List (String × Record)),
    (∀ q ∈ out, q.1 ≠ "" ∧ pyStrip q.1 = q.1) →
    ∀ q ∈ recordsLoop records n out, q.1 ≠ "" ∧ pyStrip q.1 = q.1 := by
  induction records with
  | nil => intro n out hout q hq; exact hout q hq
  | cons v rest ih =>
    intro n out hout q hq
    match v with
    | .null | .nan | .bool _ | .int _ | .str _ | .arr _ =>
      simp only [recordsLoop] at hq
      exact ih n out hout q hq
    | .obj r =>
      simp only [recordsLoop] at hq
      match hext : _extract_invoice_id r with
      | some s =>
        simp only [hext] at hq
        by_cases hs : s = ""
        · rw [if_pos hs] at hq
          refine ih (n + 1) _ ?_ q hq
          intro q2 hq2
          rcases mem_dictInsert hq2 with h1 | h1
          · rw [h1]; exact auto_key_good n
          · exact hout q2 h1
        · rw [if_neg hs] at hq
          refine ih n _ ?_ q hq
          intro q2 hq2
          rcases mem_dictInsert hq2 with h1 | h1
          · rw [h1]
            exact extractLoop_good
              (show extractLoop r INVOICE_ID_CANDIDATES = some s from hext)
          · exact hout q2 h1
      | none =>
        simp only [hext] at hq
        refine ih (n + 1) _ ?_ q hq
        intro q2 hq2
        rcases mem_dictInsert hq2 with h1 | h1
        · rw [h1]; exact auto_key_good n
        · exact hout q2 h1

/-- Non-dictionary entries are invisible to the index builder. -/
theorem recordsLoop_keepObjs (records : List JValue) :
    ∀ (n : Nat) (out : List (String × Record)),
    recordsLoop records n out = recordsLoop (keepObjs records) n out := by
  induction records with
  | nil => intro n out; rfl
  | cons v rest ih =>
    intro n out
    match v with
    | .null | .nan | .bool _ | .int _ | .str _ | .arr _ =>
      simp only [recordsLoop, keepObjs, List.filter_cons]
      exact ih n out
    | .obj r =>
      simp only [recordsLoop, keepObjs, List.filter_cons]
      match hext : _extract_invoice_id r with
      | some s =>
        by_cases hs : s = "" <;> simp [recordsLoop, keepObjs, hext, hs, ih]
      | none => simp [recordsLoop, keepObjs, hext, ih]

/-- Claim C10: every key of the built index is a non-empty string equal to
its own stripped form (resolved identifiers are trimmed, auto placeholders
have the rigid AUTO-n shape), non-dictionary entries are silently skipped,
and a field value with surrounding whitespace indexes under its trimmed
form. -/
theorem claim_C10 :
    (∀ (records : List JValue) (q : String × Record),
        q ∈ _records_by_invoice_id records → q.1 ≠ "" ∧ pyStrip q.1 = q.1) ∧
    (∀ records : List JValue,
        _records_by_invoice_id records = _records_by_invoice_id (keepObjs records)) ∧
    _records_by_invoice_id [JValue.obj [("id", JValue.str " INV-1 ")]] =
      [("INV-1", [("id", JValue.str " INV-1 ")])] := by
  refine ⟨?_, ?_, rfl⟩
  · intro records q hq
    exact recordsLoop_keys_good records 1 [] (by intro q2 hq2; exact absurd hq2 (by simp))
      q hq
  · intro records
    exact recordsLoop_keepObjs records 1 []

/-- Witness for claim C10 at a concrete load: the key produced for the
whitespace-padded value is non-empty and stripped. -/
theorem claim_C10_witness :
    ("INV-1" : String) ≠ "" ∧ pyStrip "INV-1" = "INV-1" :=
  claim_C10.1 [JValue.obj [("id", JValue.str " INV-1 ")]]
    ("INV-1", [("id", JValue.str " INV-1 ")]) (List.mem_singleton.mpr rfl)

/-! ### Template rendering of a single token -/

/-- Path characters are never whitespace (the two regex classes are
disjoint). -/
theorem keyChar_not_space {c : Char} (h : isKeyChar c = true) : isPySpace c = false := by
  by_contra h2
  have h3 : isPySpace c = true := by
    cases hb : isPySpace c
    · exact absurd hb h2
    · rfl
  simp only [isPySpace, Bool.or_eq_true, decide_eq_true_eq] at h3
  rcases h3 with ((((rfl | rfl) | rfl) | rfl) | rfl) | rfl <;> exact absurd h (by decide)

/-- Structure eta for strings. -/
theorem string_mk_data (s : String) : String.mk s.data = s := rfl

/-- The token regex matches a well-formed single token exactly, capturing
the path and consuming the whole token. -/
theorem tryToken_token (k : String) (hne : k.data ≠ [])
    (hk : ∀ c ∈ k.data, isKeyChar c = true) :
    tryToken ('\x7b' :: '\x7b' :: (k.data ++ ['\x7d', '\x7d'])) = some (k, []) := by
  obtain ⟨c, t, hct⟩ : ∃ c t, k.data = c :: t := by
    match hd : k.data with
    | [] => exact absurd hd hne
    | c :: t => exact ⟨c, t, rfl⟩
  have hc : isKeyChar c = true := hk c (by rw [hct]; exact List.mem_cons_self _ _)
  have h1 : (k.data ++ ['\x7d', '\x7d']).dropWhile isPySpace = k.data ++ ['\x7d', '\x7d'] := by
    rw [hct, List.cons_append, List.dropWhile_cons, keyChar_not_space hc]
    simp
  have h2 : (k.data ++ ['\x7d', '\x7d']).takeWhile isKeyChar = k.data := by
    rw [List.takeWhile_append_of_pos (by intro a ha; exact hk a ha),
      show (['\x7d', '\x7d'].takeWhile isKeyChar) = [] from rfl, List.append_nil]
  have h3 : (k.data ++ ['\x7d', '\x7d']).dropWhile isKeyChar = ['\x7d', '\x7d'] := by
    rw [List.dropWhile_append_of_pos (by intro a ha; exact hk a ha)]
    rfl
  simp only [tryToken]
  rw [h1, h2, h3]
  have hie : (k.data).isEmpty = false := by rw [hct]; rfl
  rw [if_neg (by simp [hie])]
  rw [show (List.dropWhile isPySpace ['\x7d', '\x7d']) = ['\x7d', '\x7d'] from rfl]
  simp [string_mk_data]

/-- Rendering a template that is exactly one well-formed token produces the
replacement for its path and nothing else. -/
theorem renderChars_token (ctx : Record) (k : String) (hne : k.data ≠ [])
    (hk : ∀ c ∈ k.data, isKeyChar c = true) :
    renderChars ctx ('\x7b' :: '\x7b' :: (k.data ++ ['\x7d', '\x7d'])) =
      (replValue ctx k).data := by
  rw [renderChars, tryToken_token k hne hk]
  simp [renderChars]

/-- `render_html_template` on a one-token template is the replacement
function applied to the path, for any context. -/
theorem render_single_token (ctx : Record) (k : String) (hne : k ≠ "")
    (hk : ∀ c ∈ k.data, isKeyChar c = true) :
    render_html_template ("\x7b\x7b" ++ k ++ "\x7d\x7d") ctx = replValue ctx k := by
  have hne2 : k.data ≠ [] := by
    intro h
    apply hne
    obtain ⟨l⟩ := k
    simp only at h
    rw [h]
  have hdata : ("\x7b\x7b" ++ k ++ "\x7d\x7d").data =
      '\x7b' :: '\x7b' :: (k.data ++ ['\x7d', '\x7d']) := rfl
  show String.mk (renderChars ctx ("\x7b\x7b" ++ k ++ "\x7d\x7d").data) = replValue ctx k
  rw [hdata, renderChars_token ctx k hne2 hk, string_mk_data]

/-- The replacement function yields the empty string for an unresolved
path, an explicit null, or a value whose textual form is the "nan"
sentinel. -/
theorem replValue_empty {ctx : Record} {k : String}
    (h : _get_nested ctx k = none ∨ _get_nested ctx k = some JValue.null ∨
         (∃ v, _get_nested ctx k = some v ∧ pyLower (pyStr v) = "nan")) :
    replValue ctx k = "" := by
  unfold replValue
  rcases h with h | h | ⟨v, hv, hnan⟩
  · rw [h]
  · rw [h]
  · rw [hv]
    cases v with
    | null => rfl
    | nan => exact if_pos hnan
    | bool b => exact if_pos hnan
    | int n => exact if_pos hnan
    | str s => exact if_pos hnan
    | arr xs => exact if_pos hnan
    | obj fs => exact if_pos hnan

/-- The replacement function HTML-escapes a resolved string value that is
not the "nan" sentinel. -/
theorem replValue_escape {ctx : Record} {k : String} {s : String}
    (hv : _get_nested ctx k = some (JValue.str s)) (hnan : pyLower s ≠ "nan") :
    replValue ctx k = escapeString s := by
  unfold replValue
  rw [hv]
  exact if_neg hnan

/-- Claim C5: a token whose dotted path is unresolved (short-circuiting on
any missing or non-mapping intermediate), or resolves to an explicit null,
or resolves to a value whose textual form is the "nan" sentinel, is
substituted with the empty string; in particular a missing key and a null
intermediate both render to the empty string. -/
theorem claim_C5 :
    (∀ (ctx : Record) (k : String), k ≠ "" → (∀ c ∈ k.data, isKeyChar c = true) →
        (_get_nested ctx k = none ∨ _get_nested ctx k = some JValue.null ∨
          (∃ v, _get_nested ctx k = some v ∧ pyLower (pyStr v) = "nan")) →
        render_html_template ("\x7b\x7b" ++ k ++ "\x7d\x7d") ctx = "") ∧
    render_html_template "\x7b\x7bmissing\x7d\x7d" [] = "" ∧
    render_html_template "\x7b\x7bpatient.name\x7d\x7d" [("patient", JValue.null)] = "" := by
  have hgen : ∀ (ctx : Record) (k : String), k ≠ "" → (∀ c ∈ k.data, isKeyChar c = true) →
      (_get_nested ctx k = none ∨ _get_nested ctx k = some JValue.null ∨
        (∃ v, _get_nested ctx k = some v ∧ pyLower (pyStr v) = "nan")) →
      render_html_template ("\x7b\x7b" ++ k ++ "\x7d\x7d") ctx = "" := by
    intro ctx k hne hk hres
    rw [render_single_token ctx k hne hk]
    exact replValue_empty hres
  refine ⟨hgen, ?_, ?_⟩
  · rw [show ("\x7b\x7bmissing\x7d\x7d" : String) = "\x7b\x7b" ++ "missing" ++ "\x7d\x7d" from rfl]
    exact hgen [] "missing" (by decide) (by decide) (Or.inl rfl)
  · rw [show ("\x7b\x7bpatient.name\x7d\x7d" : String) =
        "\x7b\x7b" ++ "patient.name" ++ "\x7d\x7d" from rfl]
    exact hgen [("patient", JValue.null)] "patient.name" (by decide) (by decide) (Or.inl rfl)

/-- Witness for claim C5: the missing-key example, with every hypothesis
discharged at the concrete input. -/
theorem claim_C5_witness :
    render_html_template ("\x7b\x7b" ++ "missing" ++ "\x7d\x7d") [] = "" :=
  claim_C5.1 [] "missing" (by decide) (by decide) (Or.inl rfl)

/-- The decoder for the five entities produced by `html.escape`: modelled
from the claim of a lossless, invertible escaping, it maps each of the five
entity sequences back to its character and copies everything else. -/
def htmlUnescape5 : List Char → List Char
  | [] => []
  | c :: rest =>
    if c = '&' then
      match rest with
      | 'a' :: 'm' :: 'p' :: ';' :: r2 => '&' :: htmlUnescape5 r2
      | 'l' :: 't' :: ';' :: r2 => '<' :: htmlUnescape5 r2
      | 'g' :: 't' :: ';' :: r2 => '>' :: htmlUnescape5 r2
      | 'q' :: 'u' :: 'o' :: 't' :: ';' :: r2 => '\x22' :: htmlUnescape5 r2
      | '#' :: 'x' :: '2' :: '7' :: ';' :: r2 => '\x27' :: htmlUnescape5 r2
      | r => '&' :: htmlUnescape5 r
    else c :: htmlUnescape5 rest

/-- The decoder on strings. -/
def htmlUnescape (s : String) : String := String.mk (htmlUnescape5 s.data)

set_option maxHeartbeats 2000000 in
/-- Decoding inverts escaping on every character list. -/
theorem unescape_escape (l : List Char) : htmlUnescape5 (escapeChars l) = l := by
  induction l with
  | nil => rfl
  | cons c rest ih =>
    by_cases h1 : c = '&'
    · subst h1
      show '&' :: htmlUnescape5 (escapeChars rest) = '&' :: rest
      rw [ih]
    · by_cases h2 : c = '<'
      · subst h2
        show '<' :: htmlUnescape5 (escapeChars rest) = '<' :: rest
        rw [ih]
      · by_cases h3 : c = '>'
        · subst h3
          show '>' :: htmlUnescape5 (escapeChars rest) = '>' :: rest
          rw [ih]
        · by_cases h4 : c = '\x22'
          · subst h4
            show '\x22' :: htmlUnescape5 (escapeChars rest) = '\x22' :: rest
            rw [ih]
          · by_cases h5 : c = '\x27'
            · subst h5
              show '\x27' :: htmlUnescape5 (escapeChars rest) = '\x27' :: rest
              rw [ih]
            · have he : escChar c = [c] := by simp [escChar, h1, h2, h3, h4, h5]
              show htmlUnescape5 (escChar c ++ escapeChars rest) = c :: rest
              rw [he]
              show htmlUnescape5 (c :: escapeChars rest) = c :: rest
              rw [htmlUnescape5.eq_def]
              dsimp only
              rw [if_neg h1, ih]

/-- Claim C6, amended: for every string value that is not the "nan"
sentinel (case-insensitively), rendering the single-token template yields
exactly the HTML-escaped form of the value, and the escaping over the five
characters is lossless: decoding the escaped form recovers the original
string exactly, for every string. -/
theorem claim_C6_amended :
    (∀ s : String, pyLower s ≠ "nan" →
        render_html_template "\x7b\x7bk\x7d\x7d" [("k", JValue.str s)] = escapeString s) ∧
    (∀ s : String, htmlUnescape (escapeString s) = s) := by
  constructor
  · intro s hs
    rw [show ("\x7b\x7bk\x7d\x7d" : String) = "\x7b\x7b" ++ "k" ++ "\x7d\x7d" from rfl,
      render_single_token _ "k" (by decide) (by decide)]
    exact replValue_escape rfl hs
  · intro s
    show String.mk (htmlUnescape5 (String.mk (escapeChars s.data)).data) = s
    rw [show (String.mk (escapeChars s.data)).data = escapeChars s.data from rfl,
      unescape_escape, string_mk_data]

/-- Witness for claim C6 at a concrete string containing three of the five
escaped characters. -/
theorem claim_C6_witness :
    render_html_template "\x7b\x7bk\x7d\x7d" [("k", JValue.str "a<b&c")] =
      escapeString "a<b&c" ∧
    htmlUnescape (escapeString "a<b&c") = "a<b&c" :=
  ⟨claim_C6_amended.1 "a<b&c" (by decide), claim_C6_amended.2 "a<b&c"⟩

/-- Claim C6 counterexample: for the string "nan" the renderer substitutes
the empty string, not the HTML-escaped form of the value, so the claimed
equality does not hold for every string. -/
theorem claim_C6_counterexample :
    render_html_template "\x7b\x7bk\x7d\x7d" [("k", JValue.str "nan")] = "" ∧
    escapeString "nan" = "nan" := by
  constructor
  · rw [show ("\x7b\x7bk\x7d\x7d" : String) = "\x7b\x7b" ++ "k" ++ "\x7d\x7d" from rfl,
      render_single_token _ "k" (by decide) (by decide)]
    exact replValue_empty (Or.inr (Or.inr ⟨JValue.str "nan", rfl, rfl⟩))
  · rfl

/-- Escaping is the identity on strings with none of the five special
characters. -/
theorem escapeChars_eq_self : ∀ {l : List Char},
    (∀ c ∈ l, escChar c = [c]) → escapeChars l = l
  | [], _ => rfl
  | c :: rest, h => by
    rw [escapeChars, h c (List.mem_cons_self _ _),
      escapeChars_eq_self (fun d hd => h d (List.mem_cons_of_mem _ hd))]
    rfl

/-- Claim C7: tokens are substituted in a single pass with no re-scanning:
a resolved string value made of ordinary characters appears verbatim in the
output even when it is itself placeholder syntax, and in particular the
value of the key it mentions is irrelevant to the output. -/
theorem claim_C7 :
    (∀ (ctx : Record) (k s : String), k ≠ "" → (∀ c ∈ k.data, isKeyChar c = true) →
        _get_nested ctx k = some (JValue.str s) → pyLower s ≠ "nan" →
        (∀ c ∈ s.data, escChar c = [c]) →
        render_html_template ("\x7b\x7b" ++ k ++ "\x7d\x7d") ctx = s) ∧
    (∀ v : JValue,
        render_html_template "\x7b\x7ba\x7d\x7d"
          [("a", JValue.str "\x7b\x7bb\x7d\x7d"), ("b", v)] = "\x7b\x7bb\x7d\x7d") := by
  constructor
  · intro ctx k s hne hk hv hnan hplain
    rw [render_single_token ctx k hne hk, replValue_escape hv hnan]
    show String.mk (escapeChars s.data) = s
    rw [escapeChars_eq_self hplain]
  · intro v
    have hres : _get_nested [("a", JValue.str "\x7b\x7bb\x7d\x7d"), ("b", v)] "a" =
        some (JValue.str "\x7b\x7bb\x7d\x7d") := rfl
    rw [show ("\x7b\x7ba\x7d\x7d" : String) = "\x7b\x7b" ++ "a" ++ "\x7d\x7d" from rfl,
      render_single_token _ "a" (by decide) (by decide),
      replValue_escape hres (by decide)]
    rfl

/-- Witness for claim C7: an injected token string appears verbatim in the
output and the key it names is never resolved. -/
theorem claim_C7_witness :
    render_html_template ("\x7b\x7b" ++ "a" ++ "\x7d\x7d")
      [("a", JValue.str "\x7b\x7bb\x7d\x7d"), ("b", JValue.str "INJ")] =
      "\x7b\x7bb\x7d\x7d" :=
  claim_C7.1 [("a", JValue.str "\x7b\x7bb\x7d\x7d"), ("b", JValue.str "INJ")] "a"
    "\x7b\x7bb\x7d\x7d" (by decide) (by decide) rfl (by decide) (by decide)

/-! ### Identifier resolution: first-match characterization and variants -/

/-- The candidate loop returns a value exactly when some candidate
qualifies and every earlier candidate in the priority list does not. -/
theorem extractLoop_eq_some_iff (r : Record) (s : String) :
    ∀ (ks : List String), extractLoop r ks = some s ↔
      ∃ (i : Nat) (k : String), ks[i]? = some k ∧ qualifies r k = some s ∧
        ∀ (j : Nat) (k2 : String), j < i → ks[j]? = some k2 →
          qualifies r k2 = none := by
  intro ks
  induction ks with
  | nil => simp [extractLoop]
  | cons k0 ks ih =>
    rw [extractLoop]
    match hq : qualifies r k0 with
    | some s0 =>
      constructor
      · intro h
        rw [Option.some.injEq] at h
        refine ⟨0, k0, by simp, by rw [hq, h], ?_⟩
        intro j k2 hj _
        omega
      · rintro ⟨i, k, hik, hqk, hmin⟩
        match i with
        | 0 =>
          rw [List.getElem?_cons_zero, Option.some.injEq] at hik
          rw [← hik] at hqk
          rw [hq] at hqk
          exact hqk
        | i + 1 =>
          have h0 := hmin 0 k0 (by omega) (by simp)
          rw [hq] at h0
          exact absurd h0 (by simp)
    | none =>
      constructor
      · intro h
        rcases ih.mp h with ⟨i, k, hik, hqk, hmin⟩
        refine ⟨i + 1, k, by simpa using hik, hqk, ?_⟩
        intro j k2 hj hjk
        match j with
        | 0 =>
          rw [List.getElem?_cons_zero, Option.some.injEq] at hjk
          rw [← hjk]
          exact hq
        | j + 1 =>
          exact hmin j k2 (by omega) (by simpa using hjk)
      · rintro ⟨i, k, hik, hqk, hmin⟩
        match i with
        | 0 =>
          rw [List.getElem?_cons_zero, Option.some.injEq] at hik
          rw [← hik, hq] at hqk
          exact absurd hqk (by simp)
        | i + 1 =>
          refine ih.mpr ⟨i, k, by simpa using hik, hqk, ?_⟩
          intro j k2 hj hjk
          exact hmin (j + 1) k2 (by omega) (by simpa using hjk)

/-- Claim C1, amended: identifier resolution in the filtering resolver is
case-sensitive first-match over its fixed priority list (the list itself
spells out common case variants): it returns `s` exactly when some
candidate key is literally present with a non-null value whose string form
strips to the non-empty, non-"nan" value `s`, and no earlier candidate in
the list qualifies. -/
theorem claim_C1_amended :
    ∀ (r : Record) (s : String),
      _extract_invoice_id r = some s ↔
        ∃ (i : Nat) (k : String), INVOICE_ID_CANDIDATES[i]? = some k ∧
          qualifies r k = some s ∧
          ∀ (j : Nat) (k2 : String), j < i → INVOICE_ID_CANDIDATES[j]? = some k2 →
            qualifies r k2 = none :=
  fun r s => extractLoop_eq_some_iff r s INVOICE_ID_CANDIDATES

/-- Witness for claim C1: the candidate `invoice` (position 3 of the list)
wins for a record with only an `invoice` field, the earlier candidates not
qualifying, and the value is stripped. -/
theorem claim_C1_witness :
    _extract_invoice_id [("invoice", JValue.str " V ")] = some "V" :=
  (claim_C1_amended [("invoice", JValue.str " V ")] "V").mpr
    ⟨3, "invoice", rfl, rfl, by
      intro j k2 hj hk2
      match j, hj with
      | 0, _ =>
        rw [show INVOICE_ID_CANDIDATES[0]? = some "invoice_id" from rfl,
          Option.some.injEq] at hk2
        rw [← hk2]
        rfl
      | 1, _ =>
        rw [show INVOICE_ID_CANDIDATES[1]? = some "invoiceId" from rfl,
          Option.some.injEq] at hk2
        rw [← hk2]
        rfl
      | 2, _ =>
        rw [show INVOICE_ID_CANDIDATES[2]? = some "invoice id" from rfl,
          Option.some.injEq] at hk2
        rw [← hk2]
        rfl
      | j + 3, hj => exact absurd hj (by omega)⟩

/-- Claim C1 counterexample: neither resolver implements the claimed
case-insensitive matching with the trim and "nan" filter. The filtering
resolver misses the field `INVOICE_ID` that the claimed resolution finds
case-insensitively, and the case-insensitive resolver of the other variant
accepts the literal value "nan" that the claimed resolution excludes. -/
theorem claim_C1_counterexample :
    claimResolveCI [("INVOICE_ID", JValue.str "X")] INVOICE_ID_CANDIDATES = some "X" ∧
    _extract_invoice_id [("INVOICE_ID", JValue.str "X")] = none ∧
    claimResolveCI [("id", JValue.str "nan")] INVOICE_ID_CANDIDATES = none ∧
    get_invoice_ids [JValue.obj [("id", JValue.str "nan")]] = ["nan"] :=
  ⟨rfl, rfl, rfl, rfl⟩

/-! ### JSON loading -/

/-- Claim C2 counterexample: the strict loader rejects the wrapping key
`items`; only the literal key `invoices` is unwrapped, so loading the
claimed source raises the format error instead of yielding the record. -/
theorem claim_C2_counterexample :
    _load_json_records
        (JValue.obj [("items",
          JValue.arr [JValue.obj [("invoice", JValue.str "Z1"), ("total", JValue.int 100)]])]) =
      Except.error jsonFormatErrMsg := rfl

/-- Claim C2, amended: the strict loader unwraps exactly the wrapping key
`invoices`, yielding the one record, whose resolved identifier is `Z1`;
the permissive loader unwraps the first list-valued field whatever its key,
so it does yield the record for the `items` source, and its resolver also
derives `Z1`. -/
theorem claim_C2_amended :
    _load_json_records
        (JValue.obj [("invoices",
          JValue.arr [JValue.obj [("invoice", JValue.str "Z1"), ("total", JValue.int 100)]])]) =
      Except.ok [JValue.obj [("invoice", JValue.str "Z1"), ("total", JValue.int 100)]] ∧
    _extract_invoice_id [("invoice", JValue.str "Z1"), ("total", JValue.int 100)] =
      some "Z1" ∧
    read_json_file
        (JValue.obj [("items",
          JValue.arr [JValue.obj [("invoice", JValue.str "Z1"), ("total", JValue.int 100)]])]) =
      [JValue.obj [("invoice", JValue.str "Z1"), ("total", JValue.int 100)]] ∧
    get_invoice_ids [JValue.obj [("invoice", JValue.str "Z1"), ("total", JValue.int 100)]] =
      ["Z1"] :=
  ⟨rfl, rfl, rfl, rfl⟩

/-- The error condition of the strict loader on a top-level object: it
raises exactly when there is no `invoices` list and no object-valued
field. -/
theorem load_obj_error_iff (fields : List (String × JValue)) :
    _load_json_records (JValue.obj fields) = Except.error jsonFormatErrMsg ↔
      (∀ xs, lookupField fields "invoices" ≠ some (JValue.arr xs)) ∧
      dictOfDictsRows fields = [] := by
  simp only [_load_json_records]
  rcases hl : lookupField fields "invoices" with _ | w
  · dsimp only
    constructor
    · intro h
      refine ⟨by simp [hl], ?_⟩
      by_cases hr : (dictOfDictsRows fields).isEmpty
      · exact List.isEmpty_iff.mp hr
      · rw [if_neg hr] at h
        exact absurd h (by simp)
    · rintro ⟨h1, h2⟩
      rw [if_pos (by rw [h2]; rfl)]
  · match w with
    | JValue.arr xs =>
      dsimp only
      constructor
      · intro h
        exact absurd h (by simp)
      · rintro ⟨h1, _⟩
        exact absurd rfl (h1 xs)
    | JValue.null | JValue.nan | JValue.bool _ | JValue.int _ | JValue.str _
    | JValue.obj _ =>
      dsimp only
      constructor
      · intro h
        refine ⟨by simp [hl], ?_⟩
        by_cases hr : (dictOfDictsRows fields).isEmpty
        · exact List.isEmpty_iff.mp hr
        · rw [if_neg hr] at h
          exact absurd h (by simp)
      · rintro ⟨h1, h2⟩
        rw [if_pos (by rw [h2]; rfl)]

/-- Claim C8, amended: the strict loader fails with the format error
exactly for sources that are not arrays and that, when objects, have
neither an `invoices` array nor any object-valued field; the permissive
loader never raises, wrapping unrecognized shapes as pseudo-records
instead. -/
theorem claim_C8_amended :
    ∀ v : JValue,
      _load_json_records v = Except.error jsonFormatErrMsg ↔
        (match v with
         | JValue.arr _ => False
         | JValue.obj fields =>
             (∀ xs, lookupField fields "invoices" ≠ some (JValue.arr xs)) ∧
             dictOfDictsRows fields = []
         | _ => True) := by
  intro v
  match v with
  | JValue.null | JValue.nan | JValue.bool _ | JValue.int _ | JValue.str _ =>
    simp [_load_json_records]
  | JValue.arr xs => simp [_load_json_records]
  | JValue.obj fields => exact load_obj_error_iff fields

/-- Witness for claim C8: a bare scalar source is rejected by the strict
loader with the format error. -/
theorem claim_C8_witness :
    _load_json_records (JValue.int 42) = Except.error jsonFormatErrMsg :=
  (claim_C8_amended (JValue.int 42)).mpr trivial

/-- Claim C8 counterexample: the permissive loader never fails: a bare
scalar and an object with no object-valued field, neither of which matches
any of the three accepted shapes, are silently wrapped as one-element
record lists instead of raising a FormatError. -/
theorem claim_C8_counterexample :
    read_json_file (JValue.int 42) = [JValue.int 42] ∧
    read_json_file (JValue.obj [("a", JValue.int 1)]) =
      [JValue.obj [("a", JValue.int 1)]] :=
  ⟨rfl, rfl⟩
